import Mathlib

/-!
Verification of the zhaires.py output-parsing pipeline.

Shallow embedding of `zhaires/loader.py` and `zhaires/table.py`.
Python floats are modelled as exact rationals; the regular expressions of
the source are embedded as explicit backtracking patterns with Python's
leftmost-then-greedy search semantics; Python dicts are association lists;
fallible operations (KeyError, IndexError, ValueError, unbound locals)
return `Option`/`Except`.
-/

set_option maxRecDepth 100000

namespace Zhaires

/-! Kernel-reducible rational helpers.  Batteries marks `Rat.mul`/`Rat.add`
irreducible, so the embedding computes through `mkRat` and bridges to the
ordinary field operations by lemmas proved later. -/

/-- Multiplication on rationals, computed through `mkRat`. -/
def qmul (a b : ℚ) : ℚ := mkRat (a.num * b.num) (a.den * b.den)

/-- Integer power of ten as a rational, computed through `mkRat`. -/
def pow10 (k : ℤ) : ℚ :=
  if 0 ≤ k then mkRat (10 ^ k.toNat) 1 else mkRat 1 (10 ^ (-k).toNat)

/-- Ceiling of a rational, computed through integer division. -/
def ratCeil (q : ℚ) : ℤ := -((-q.num) / (q.den : ℤ))

/-- Truncation toward zero, the semantics of Python's `int()` on a number. -/
def truncInt (q : ℚ) : ℤ := q.num.tdiv (q.den : ℤ)

/-- Exact rational division of a natural count by an integer count, the
value of Python's `R / A` true division. -/
def divAsRat (R : ℕ) (A : ℤ) : ℚ :=
  if A < 0 then mkRat (-(R : ℤ)) (-A).toNat else mkRat (R : ℤ) A.toNat

/-! Embedding of the regular-expression fragment used by the source:
single-character literals and classes, greedy star/plus over a class,
optional character, and capture groups.  `re.search` semantics: leftmost
match position wins; at a position, alternatives are explored in greedy
(backtracking) priority order. -/

/-- One atom of a source regex. -/
inductive RItem where
  | lit (c : Char)
  | cls (p : Char → Bool)
  | star (p : Char → Bool)
  | plus (p : Char → Bool)
  | opt (p : Char → Bool)

/-- A maximal run of pattern pieces, marked when it is a capture group. -/
structure RSeg where
  cap : Bool
  items : List RItem

/-- Remainders after a greedy star over a single-character class, in
backtracking priority order (longest consumption first). -/
def starAlts (p : Char → Bool) : List Char → List (List Char)
  | [] => [[]]
  | c :: cs => if p c then starAlts p cs ++ [c :: cs] else [c :: cs]

/-- Remainders after matching one atom, in priority order. -/
def itemAlts : RItem → List Char → List (List Char)
  | .lit a, c :: cs => if c = a then [cs] else []
  | .lit _, [] => []
  | .cls p, c :: cs => if p c then [cs] else []
  | .cls _, [] => []
  | .star p, s => starAlts p s
  | .plus p, c :: cs => if p c then starAlts p cs else []
  | .plus _, [] => []
  | .opt p, c :: cs => if p c then [cs, c :: cs] else [c :: cs]
  | .opt _, [] => [[]]

/-- Remainders after matching a list of atoms, in priority order. -/
def itemsAlts : List RItem → List Char → List (List Char)
  | [], s => [s]
  | i :: rest, s => (itemAlts i s).flatMap (itemsAlts rest)

/-- Match a list of segments at the start of `s`, returning the captured
substrings of the first (highest-priority) successful parse. -/
def segsFirst : List RSeg → List Char → Option (List (List Char))
  | [], _ => some []
  | seg :: rest, s =>
    (itemsAlts seg.items s).findSome? fun r =>
      (segsFirst rest r).map fun caps =>
        if seg.cap then s.take (s.length - r.length) :: caps else caps

/-- Model of `re.search`: scan start positions left to right, return the captures of
the first match. -/
def reSearch (p : List RSeg) : List Char → Option (List (List Char))
  | [] => segsFirst p []
  | c :: cs =>
    match segsFirst p (c :: cs) with
    | some caps => some caps
    | none => reSearch p cs

/-- Python's `\s` class (ASCII fragment). -/
def isSpaceChar (c : Char) : Bool :=
  c = ' ' || c = '\t' || c = '\n' || c = '\r' || c = '\x0b' || c = '\x0c'

/-- Python's unescaped `.`: any character but newline. -/
def anyChar (c : Char) : Bool := c != '\n'

/-- A sequence of literal atoms for a literal fragment of a pattern. -/
def lits (s : String) : List RItem := s.data.map RItem.lit

/-- The `\s*` atom. -/
def wsStar : RItem := .star isSpaceChar

/-- The `\d+.\d+` fragment (the dot is an unescaped wildcard in the source). -/
def numU : List RItem := [.plus Char.isDigit, .cls anyChar, .plus Char.isDigit]

/-- The `-?\d+.\d+` fragment. -/
def numS : List RItem := .opt (fun c => c == '-') :: numU

namespace Loader

/-! Embedding of `zhaires/loader.py`. -/

/-- Pattern of `r"\s*Primary energy: (\d+.\d+) ([a-zA-Z]{3})"`. -/
def energyPat : List RSeg :=
  [⟨false, wsStar :: lits "Primary energy: "⟩,
   ⟨true, numU⟩,
   ⟨false, [.lit ' ']⟩,
   ⟨true, [.cls Char.isAlpha, .cls Char.isAlpha, .cls Char.isAlpha]⟩]

/-- Pattern of `r"\s*Primary particle: ([a-zA-Z]*)"`. -/
def particlePat : List RSeg :=
  [⟨false, wsStar :: lits "Primary particle: "⟩,
   ⟨true, [.star Char.isAlpha]⟩]

/-- Pattern of `r"\s*Primary zenith angle:\s*(\d+.\d+)"`. -/
def zenithPat : List RSeg :=
  [⟨false, (wsStar :: lits "Primary zenith angle:") ++ [wsStar]⟩, ⟨true, numU⟩]

/-- Pattern of `r"\s*Primary azimuth angle:\s*(-?\d+.\d+)"`. -/
def azimuthPat : List RSeg :=
  [⟨false, (wsStar :: lits "Primary azimuth angle:") ++ [wsStar]⟩, ⟨true, numS⟩]

/-- Pattern of `r"\s*\(Lat:\s*(-?\d+.\d+)\s*deg.\s*Long:\s*(-?\d+.\d+)"`. -/
def latLonPat : List RSeg :=
  [⟨false, (wsStar :: lits "(Lat:") ++ [wsStar]⟩,
   ⟨true, numS⟩,
   ⟨false, ([wsStar] ++ lits "deg" ++ [.cls anyChar] ++ [wsStar] ++ lits "Long:") ++ [wsStar]⟩,
   ⟨true, numS⟩]

/-- Pattern of `r"\s*Ground altitude:\s*(\d+.\d+)"`. -/
def groundPat : List RSeg :=
  [⟨false, (wsStar :: lits "Ground altitude:") ++ [wsStar]⟩, ⟨true, numU⟩]

/-- Pattern of `r"\s*Injection altitude:\s*(\d+.\d+)"`. -/
def injectionPat : List RSeg :=
  [⟨false, (wsStar :: lits "Injection altitude:") ++ [wsStar]⟩, ⟨true, numU⟩]

/-- Pattern of `r"Intensity:\s*(\d+.\d+) uT"`. -/
def intensityPat : List RSeg :=
  [⟨false, lits "Intensity:" ++ [wsStar]⟩, ⟨true, numU⟩, ⟨false, lits " uT"⟩]

/-- Pattern of `r"\s*I:\s*(-?\d+.\d+) deg"`. -/
def magIncPat : List RSeg :=
  [⟨false, (wsStar :: lits "I:") ++ [wsStar]⟩, ⟨true, numS⟩, ⟨false, lits " deg"⟩]

/-- Pattern of `r"D:\s*(\d+.\d+) deg"`. -/
def magDecPat : List RSeg :=
  [⟨false, lits "D:" ++ [wsStar]⟩, ⟨true, numU⟩, ⟨false, lits " deg"⟩]

/-- Pattern of `r"\s*Time bin size:\s*(-?\d+.\d+)ns"`. -/
def dtPat : List RSeg :=
  [⟨false, (wsStar :: lits "Time bin size:") ++ [wsStar]⟩, ⟨true, numS⟩, ⟨false, lits "ns"⟩]

/-- Pattern of `r"\s*Refraction index at sea level:(-?\d+.\d+)"`. -/
def rindexPat : List RSeg :=
  [⟨false, wsStar :: lits "Refraction index at sea level:"⟩, ⟨true, numS⟩]

/-- Pattern of `r"\s*Thinning energy:\s*(\d+.\d+E-?\d+)"`. -/
def thinningPat : List RSeg :=
  [⟨false, (wsStar :: lits "Thinning energy:") ++ [wsStar]⟩,
   ⟨true, numU ++ [.lit 'E', .opt (fun c => c == '-'), .plus Char.isDigit]⟩]

/-- Pattern of `r"\s*Sl. depth of max. \(g/cm2\):\s*(\d+.\d+)"` (the two
unescaped dots are wildcards). -/
def xmaxPat : List RSeg :=
  [⟨false, (wsStar :: (lits "Sl" ++ [.cls anyChar] ++ lits " depth of max" ++
      [.cls anyChar] ++ lits " (g/cm2):")) ++ [wsStar]⟩,
   ⟨true, numU⟩]

/-- Strip surrounding whitespace, as Python's `float` does. -/
def stripSpaces (s : List Char) : List Char :=
  ((s.dropWhile isSpaceChar).reverse.dropWhile isSpaceChar).reverse

/-- Decimal digit string to a natural number. -/
def digitsToNat (ds : List Char) : ℕ :=
  ds.foldl (fun a c => 10 * a + (c.toNat - 48)) 0

/-- Exact value of a decimal literal: sign, integer digits, fraction digits
and a base-ten exponent. -/
def decToRat (neg : Bool) (ip fp : List Char) (e : ℤ) : ℚ :=
  let D : ℤ := (if neg then -1 else 1) * (digitsToNat (ip ++ fp) : ℤ)
  let k : ℤ := e - fp.length
  if 0 ≤ k then mkRat (D * 10 ^ k.toNat) 1 else mkRat D (10 ^ (-k).toNat)

/-- Python's `float()` on the strings this module feeds it, modelled as an
exact rational (digit-group underscores and inf/nan are out of scope: no
capture of the source's patterns can produce them). -/
def parseFloat (s0 : List Char) : Option ℚ :=
  let s1 := stripSpaces s0
  let sg : Bool × List Char :=
    match s1 with
    | '-' :: t => (true, t)
    | '+' :: t => (false, t)
    | t => (false, t)
  let ip := sg.2.takeWhile Char.isDigit
  let s3 := sg.2.dropWhile Char.isDigit
  let fr : List Char × List Char :=
    match s3 with
    | '.' :: t => (t.takeWhile Char.isDigit, t.dropWhile Char.isDigit)
    | t => ([], t)
  if ip.isEmpty && fr.1.isEmpty then none
  else
    match fr.2 with
    | [] => some (decToRat sg.1 ip fr.1 0)
    | c :: t =>
      if c = 'e' || c = 'E' then
        let esg : Bool × List Char :=
          match t with
          | '-' :: u => (true, u)
          | '+' :: u => (false, u)
          | u => (false, u)
        let ed := esg.2.takeWhile Char.isDigit
        let t3 := esg.2.dropWhile Char.isDigit
        if ed.isEmpty || !t3.isEmpty then none
        else some (decToRat sg.1 ip fr.1 ((if esg.1 then -1 else 1) * (digitsToNat ed : ℤ)))
      else none

/-- A value stored in the properties dict: every property is a float except
the lowercased particle name. -/
inductive PVal where
  | num (q : ℚ)
  | str (s : String)
deriving DecidableEq

/-- The Python dict, as an insertion-ordered association list. -/
abbrev Dict := List (String × PVal)

/-- Python dict assignment `d[k] = v`: overwrite in place or append. -/
def dictInsert : Dict → String → PVal → Dict
  | [], k, v => [(k, v)]
  | (k0, v0) :: rest, k, v =>
    if k0 = k then (k0, v) :: rest else (k0, v0) :: dictInsert rest k v

/-- Python dict lookup `d[k]`, `none` when the key is absent (KeyError). -/
def dictGet : Dict → String → Option PVal
  | [], _ => none
  | (k0, v0) :: rest, k => if k0 = k then some v0 else dictGet rest k

/-- The keys of the dict. -/
def dictKeys (d : Dict) : List String := d.map Prod.fst

/-- The unit-suffix exponent of `parse_energy`; an unrecognized suffix
leaves the local unbound (fatal), hence `none`. -/
def unitExponent (unit : String) : Option ℤ :=
  if unit = "PeV" then some 15
  else if unit = "EeV" then some 18
  else if unit = "ZeV" then some 21
  else none

/-- Model of `parse_energy` of `loader.py`: `energy * 10.0 ** (exponent - 18)`. -/
def parse_energy (energy : ℚ) (unit : String) : Option ℚ :=
  (unitExponent unit).map fun exponent => qmul energy (pow10 (exponent - 18))

/-- One numeric property block of `load_properties`: search the pattern,
on a match convert the first capture with `float` and assign the key. -/
def numStep (pat : List RSeg) (key : String) (line : List Char) (d : Dict) : Option Dict :=
  match reSearch pat line with
  | none => some d
  | some caps =>
    match caps with
    | g :: _ => (parseFloat g).map fun q => dictInsert d key (.num q)
    | [] => none

/-- The value the energy block stores for a given capture list. -/
def energyValue (caps : List (List Char)) : Option ℚ :=
  match caps with
  | g1 :: g2 :: _ => (parseFloat g1).bind fun m => parse_energy m (String.mk g2)
  | _ => none

/-- The primary-energy block of `load_properties`. -/
def energyStep (line : List Char) (d : Dict) : Option Dict :=
  match reSearch energyPat line with
  | none => some d
  | some caps => (energyValue caps).map fun q => dictInsert d "energy" (.num q)

/-- Python `str.lower` on the captured particle name. -/
def lowerStr (g : List Char) : String := String.mk (g.map Char.toLower)

/-- The primary-particle block of `load_properties` (infallible). -/
def particleStep (line : List Char) (d : Dict) : Dict :=
  match reSearch particlePat line with
  | none => d
  | some caps =>
    match caps with
    | g :: _ => dictInsert d "particle" (.str (lowerStr g))
    | [] => d

/-- The latitude/longitude block of `load_properties` (two captures). -/
def latLonStep (line : List Char) (d : Dict) : Option Dict :=
  match reSearch latLonPat line with
  | none => some d
  | some caps =>
    match caps with
    | g1 :: g2 :: _ =>
      (parseFloat g1).bind fun la =>
        (parseFloat g2).map fun lo =>
          dictInsert (dictInsert d "lat" (.num la)) "lon" (.num lo)
    | _ => none

/-- One iteration of the `for line in f` loop of `load_properties`: the
fourteen match blocks in source order. -/
def procLine (line : List Char) (d : Dict) : Option Dict := do
  let d ← energyStep line d
  let d := particleStep line d
  let d ← numStep zenithPat "zenith" line d
  let d ← numStep azimuthPat "azimuth" line d
  let d ← latLonStep line d
  let d ← numStep groundPat "ground" line d
  let d ← numStep injectionPat "injection" line d
  let d ← numStep intensityPat "mag_str" line d
  let d ← numStep magIncPat "mag_inc" line d
  let d ← numStep magDecPat "mag_dec" line d
  let d ← numStep dtPat "dt" line d
  let d ← numStep rindexPat "rindex" line d
  let d ← numStep thinningPat "thinning" line d
  numStep xmaxPat "xmax" line d

/-- The line loop of `load_properties` from a given accumulated dict. -/
def loadPropsFrom (d : Dict) : List String → Option Dict
  | [] => some d
  | line :: rest => (procLine line.data d).bind fun d1 => loadPropsFrom d1 rest

/-- Model of `load_properties` of `loader.py`, over the lines of the `.sry` report. -/
def load_properties (lines : List String) : Option Dict := loadPropsFrom [] lines

/-- One row of the transposed `timefresnel-root.dat` matrix; fields name
the columns the source reads: column 1 the antenna index, 2-4 position,
5 time, 11-13 the field components. -/
structure RawRow where
  ant : ℚ
  x : ℚ
  y : ℚ
  z : ℚ
  t : ℚ
  Ex : ℚ
  Ey : ℚ
  Ez : ℚ
deriving DecidableEq

/-- Model of `__pad_or_cut` of `loader.py`. -/
def pad_or_cut (arr : List ℚ) (length : ℕ) : List ℚ :=
  if arr.length < length then arr ++ List.replicate (length - arr.length) 0
  else arr.take length

/-- Model of `int(raw[1, -1])`: the truncated last entry of the antenna column;
`none` models the IndexError on an empty matrix. -/
def antennaCount (rows : List RawRow) : Option ℤ :=
  rows.getLast?.map fun r => truncInt r.ant

/-- Model of `int(np.ceil(raw.shape[1] / nantennas))`. -/
def commonLength (R : ℕ) (A : ℤ) : ℕ := (ratCeil (divAsRat R A)).toNat

/-- The nine scalar properties `load_waveforms` copies into each record. -/
def nineKeys : List String :=
  ["energy", "zenith", "azimuth", "lat", "lon", "ground", "mag_str", "mag_inc", "mag_dec"]

/-- Numeric lookup `props[key]`; `none` on a missing key (KeyError) or a
non-float value. -/
def getNum (d : Dict) (key : String) : Option ℚ :=
  match dictGet d key with
  | some (.num q) => some q
  | _ => none

/-- One entry of the structured waveform array of `load_waveforms`. -/
structure AntRecord where
  energy : ℚ
  zenith : ℚ
  azimuth : ℚ
  lat : ℚ
  lon : ℚ
  ground : ℚ
  mag_str : ℚ
  mag_inc : ℚ
  mag_dec : ℚ
  x : ℚ
  y : ℚ
  z : ℚ
  t : List ℚ
  Ex : List ℚ
  Ey : List ℚ
  Ez : List ℚ
deriving DecidableEq

/-- Model of `raw[:, raw[1, :] == iant + 1]`: the rows of antenna `iant` (0-based),
selected by exact equality on the float antenna column. -/
def antennaRows (rows : List RawRow) (iant : ℕ) : List RawRow :=
  rows.filter fun r => r.ant == ((iant + 1 : ℕ) : ℚ)

/-- The body of the per-antenna loop of `load_waveforms`: copy the nine
scalar properties (KeyError when absent), the position of the first
selected row (IndexError when no row), and the padded/cut series. -/
def buildRecord (rows : List RawRow) (props : Dict) (len : ℕ) (iant : ℕ) :
    Option AntRecord := do
  let sel := antennaRows rows iant
  let energy ← getNum props "energy"
  let zenith ← getNum props "zenith"
  let azimuth ← getNum props "azimuth"
  let lat ← getNum props "lat"
  let lon ← getNum props "lon"
  let ground ← getNum props "ground"
  let mag_str ← getNum props "mag_str"
  let mag_inc ← getNum props "mag_inc"
  let mag_dec ← getNum props "mag_dec"
  let first ← sel.head?
  some
    { energy := energy, zenith := zenith, azimuth := azimuth, lat := lat, lon := lon,
      ground := ground, mag_str := mag_str, mag_inc := mag_inc, mag_dec := mag_dec,
      x := first.x, y := first.y, z := first.z,
      t := pad_or_cut (sel.map RawRow.t) len,
      Ex := pad_or_cut (sel.map RawRow.Ex) len,
      Ey := pad_or_cut (sel.map RawRow.Ey) len,
      Ez := pad_or_cut (sel.map RawRow.Ez) len }

/-- The parse-and-assemble stage of `load_waveforms` after the raw matrix
and properties are in memory. -/
def assembleWaveforms (rows : List RawRow) (props : Dict) : Option (List AntRecord) := do
  let A ← antennaCount rows
  let len := commonLength rows.length A
  (List.range A.toNat).mapM (buildRecord rows props len)

/-- The files of one simulation directory that `load_waveforms` touches:
`waveforms.npy` (cache), `timefresnel-root.dat` (raw dump, already parsed
to rows), and the `.sry` report lines.  `none` means the file is absent. -/
structure SimFS where
  cache : Option (List AntRecord)
  rawDump : Option (List RawRow)
  sry : Option (List String)
deriving DecidableEq

/-- Model of `load_waveforms` of `loader.py`: return the cache when it exists, else
parse, assemble, and write the cache back when `write_cache` is set.
Returns the data with the resulting directory state; `none` is a raised
error (missing file, failed parse, KeyError/IndexError). -/
def load_waveforms (fs : SimFS) (write_cache : Bool) : Option (List AntRecord × SimFS) :=
  match fs.cache with
  | some cached => some (cached, fs)
  | none =>
    match fs.rawDump with
    | none => none
    | some rows =>
      match fs.sry with
      | none => none
      | some lines =>
        match load_properties lines with
        | none => none
        | some props =>
          match assembleWaveforms rows props with
          | none => none
          | some data =>
            some (data, if write_cache then { fs with cache := some data } else fs)

/-- The last line of a report matched by the primary-energy pattern, with
its captures (later lines take priority: the implementation overwrites). -/
def lastEnergyMatch : List (List Char) → Option (List (List Char))
  | [] => none
  | line :: rest =>
    match lastEnergyMatch rest with
    | some caps => some caps
    | none => reSearch energyPat line

/-- The fixed key set `load_properties` can ever populate. -/
def allowedKeys : List String :=
  ["energy", "particle", "zenith", "azimuth", "lat", "lon", "ground", "injection",
   "mag_str", "mag_inc", "mag_dec", "dt", "rindex", "thinning", "xmax"]

/-- Whether the label pattern feeding key `k` matches the line. -/
def keyFired (k : String) (line : List Char) : Bool :=
  if k = "energy" then (reSearch energyPat line).isSome
  else if k = "particle" then (reSearch particlePat line).isSome
  else if k = "zenith" then (reSearch zenithPat line).isSome
  else if k = "azimuth" then (reSearch azimuthPat line).isSome
  else if k = "lat" then (reSearch latLonPat line).isSome
  else if k = "lon" then (reSearch latLonPat line).isSome
  else if k = "ground" then (reSearch groundPat line).isSome
  else if k = "injection" then (reSearch injectionPat line).isSome
  else if k = "mag_str" then (reSearch intensityPat line).isSome
  else if k = "mag_inc" then (reSearch magIncPat line).isSome
  else if k = "mag_dec" then (reSearch magDecPat line).isSome
  else if k = "dt" then (reSearch dtPat line).isSome
  else if k = "rindex" then (reSearch rindexPat line).isSome
  else if k = "thinning" then (reSearch thinningPat line).isSome
  else if k = "xmax" then (reSearch xmaxPat line).isSome
  else false

/-! Concrete sample data used by the closed instantiations below. -/

/-- A four-row raw dump with two antennas, distributed unevenly: antenna 1
has three samples, antenna 2 has one. -/
def sampleRows : List RawRow :=
  [⟨1, 10, 11, 12, 100, 7, 8, 9⟩,
   ⟨1, 10, 11, 12, 101, 7, 8, 9⟩,
   ⟨1, 10, 11, 12, 102, 7, 8, 9⟩,
   ⟨2, 20, 21, 22, 200, 4, 5, 6⟩]

/-- A properties dict carrying all nine scalar properties. -/
def sampleProps : Dict :=
  [("energy", .num 1), ("zenith", .num 60), ("azimuth", .num 0), ("lat", .num 0),
   ("lon", .num 0), ("ground", .num 0), ("mag_str", .num 56), ("mag_inc", .num 0),
   ("mag_dec", .num 0)]

/-- The same dict with the scalar property `mag_dec` absent. -/
def samplePropsMissing : Dict :=
  [("energy", .num 1), ("zenith", .num 60), ("azimuth", .num 0), ("lat", .num 0),
   ("lon", .num 0), ("ground", .num 0), ("mag_str", .num 56), ("mag_inc", .num 0)]

/-- The records `assembleWaveforms` produces on `sampleRows`/`sampleProps`:
common length ceil(4/2) = 2, antenna 1 truncated, antenna 2 zero-padded. -/
def sampleRecs : List AntRecord :=
  [⟨1, 60, 0, 0, 0, 0, 56, 0, 0, 10, 11, 12, [100, 101], [7, 7], [8, 8], [9, 9]⟩,
   ⟨1, 60, 0, 0, 0, 0, 56, 0, 0, 20, 21, 22, [200, 0], [4, 0], [5, 0], [6, 0]⟩]

/-- A directory state whose cache file exists but whose raw dump and
report are both absent. -/
def sampleFS : SimFS := ⟨some sampleRecs, none, none⟩

end Loader

namespace Table

/-! Embedding of `zhaires/table.py`. -/

/-- Boolean prefix test on character lists. -/
def leadsWith : List Char → List Char → Bool
  | [], _ => true
  | _ :: _, [] => false
  | a :: as, b :: bs => a == b && leadsWith as bs

/-- Boolean substring test, the semantics of `re.search` on the literal
marker strings of `parse_table_type`. -/
def containsSub (needle : List Char) : List Char → Bool
  | [] => leadsWith needle []
  | c :: cs => leadsWith needle (c :: cs) || containsSub needle cs

/-- Model of `parse_table_type` of `table.py` on the file's contents: classify by
ordered first match over the first 600 characters; no marker is the
ValueError `"Unknown table type."`.  The filename argument mirrors the
source signature (the file it opens); note the raised message does not
use it. -/
def parse_table_type (filename : String) (contents : String) : Except String String :=
  let cs := contents.data.take 600
  if containsSub ("TABLE 5").data cs then .ok "ground"
  else if containsSub ("Longitudinal development: Energy").data cs then .ok "energy"
  else if containsSub ("Longitudinal development:").data cs then .ok "long"
  else if containsSub ("Lateral distribution:").data cs then .ok "lateral"
  else if containsSub ("Unweighted lateral distribution:").data cs then .ok "lateral"
  else if containsSub ("Energy distribution").data cs then .ok "energy"
  else if containsSub ("Energy distribution").data cs then .ok "energy"
  else .error "Unknown table type."

/-- The raw numeric content `np.loadtxt` yields: 1-D for a single-row
(ground) table, 2-D otherwise. -/
inductive RawTable where
  | one (vals : List ℚ)
  | two (vals : List (List ℚ))
deriving DecidableEq

/-- The slice of `xarray.DataArray` the source constructs: dims, coords,
values and the attached attrs. -/
structure DataArray where
  dims : List String
  levels : List ℕ
  quantities : List String
  vals : RawTable
  units : List (String × String)
deriving DecidableEq

/-- Model of `parse_longitudinal` of `table.py`: drop the index column, label the
remaining six columns. -/
def parse_longitudinal (data : List (List ℚ)) : DataArray :=
  ⟨["level", "quantity"], List.range data.length,
   ["depth", "mean", "rms", "stdev", "min", "max"], .two (data.map (List.drop 1)), []⟩

/-- Model of `parse_lateral` of `table.py`. -/
def parse_lateral (data : List (List ℚ)) : DataArray :=
  ⟨["level", "quantity"], List.range data.length,
   ["R", "mean", "rms", "stdev", "min", "max"], .two (data.map (List.drop 1)), []⟩

/-- Model of `parse_energy` of `table.py`. -/
def parse_energy (data : List (List ℚ)) : DataArray :=
  ⟨["level", "quantity"], List.range data.length,
   ["energy", "mean", "rms", "stdev", "min", "max"], .two (data.map (List.drop 1)), []⟩

/-- Model of `parse_ground` of `table.py`: drop the leading entry of the single row. -/
def parse_ground (data : List ℚ) : DataArray :=
  ⟨["quantity"], [], ["number", "energy", "entries"], .one (data.drop 1), []⟩

/-- The fixed units attrs `load_table` attaches. -/
def unitsMeta : List (String × String) :=
  [("depth", "g/cm^2"), ("length", "m"), ("time", "ns"), ("angle", "deg"), ("energy", "GeV")]

/-- The `if table_type == ...` dispatch of `load_table`; `none` covers both
the final `raise ValueError` arm and a raw shape the parser cannot index
(the numpy/xarray failure). -/
def dispatchTable (table_type : String) (raw : RawTable) : Option DataArray :=
  match table_type, raw with
  | "long", .two d => some (parse_longitudinal d)
  | "lateral", .two d => some (parse_lateral d)
  | "energy", .two d => some (parse_energy d)
  | "ground", .one d => some (parse_ground d)
  | _, _ => none

/-- Model of `load_table` of `table.py`: check existence, classify, dispatch to the
four parsers, then set `attrs["units"]` unconditionally. -/
def load_table (filename : String) (fileExists : Bool) (contents : String)
    (raw : RawTable) : Except String DataArray :=
  if !fileExists then .error ("Unable to load " ++ filename)
  else
    match parse_table_type filename contents with
    | .error e => .error e
    | .ok table_type =>
      match dispatchTable table_type raw with
      | some data => .ok { data with units := unitsMeta }
      | none => .error ("Unknown table type: " ++ table_type)

/-- The content markers of the classifier, in tested order, with the type
each one yields. -/
def claimMarkerTable : List (String × String) :=
  [("TABLE 5", "ground"), ("Longitudinal development: Energy", "energy"),
   ("Longitudinal development:", "long"), ("Lateral distribution:", "lateral"),
   ("Unweighted lateral distribution:", "lateral"), ("Energy distribution", "energy")]

/-- Ordered-first-match classification as the specification words it. -/
def firstMatchClassify (contents : String) : Except String String :=
  match claimMarkerTable.find? fun mk => containsSub mk.1.data (contents.data.take 600) with
  | some mk => .ok mk.2
  | none => .error "Unknown table type."

end Table

/-! Bridge lemmas from the kernel-reducible arithmetic helpers to the
ordinary field operations on `ℚ`. -/

theorem qmul_eq (a b : ℚ) : qmul a b = a * b := by
  rw [qmul, Rat.mul_def, Rat.normalize_eq_mkRat]

theorem pow10_eq (k : ℤ) : pow10 k = (10 : ℚ) ^ k := by
  rw [pow10]
  split
  case isTrue h =>
    rw [Rat.mkRat_eq_div]
    push_cast
    rw [← zpow_natCast, Int.toNat_of_nonneg h]
    simp
  case isFalse h =>
    rw [Rat.mkRat_eq_div]
    push_cast
    rw [← zpow_natCast, Int.toNat_of_nonneg (by omega : (0 : ℤ) ≤ -k), zpow_neg]
    simp

theorem ratCeil_eq (q : ℚ) : ratCeil q = ⌈q⌉ := by
  have h1 : (⌈q⌉ : ℤ) = -⌊-q⌋ := by rw [Int.floor_neg]; omega
  rw [h1, Rat.floor_def, ratCeil, Rat.neg_num, Rat.neg_den]

theorem divAsRat_eq (R : ℕ) (A : ℤ) : divAsRat R A = (R : ℚ) / (A : ℚ) := by
  rw [divAsRat]
  split
  case isTrue h =>
    rw [Rat.mkRat_eq_div]
    have h2 : (((-A).toNat : ℤ) : ℚ) = ((-A : ℤ) : ℚ) := by
      rw [Int.toNat_of_nonneg (by omega : (0 : ℤ) ≤ -A)]
    push_cast at h2 ⊢
    rw [h2, neg_div_neg_eq]
  case isFalse h =>
    rw [Rat.mkRat_eq_div]
    have h2 : ((A.toNat : ℤ) : ℚ) = ((A : ℤ) : ℚ) := by
      rw [Int.toNat_of_nonneg (by omega : (0 : ℤ) ≤ A)]
    push_cast at h2 ⊢
    rw [h2]

theorem commonLength_eq (R : ℕ) (A : ℤ) :
    Loader.commonLength R A = (⌈(R : ℚ) / (A : ℚ)⌉).toNat := by
  rw [Loader.commonLength, ratCeil_eq, divAsRat_eq]

namespace Loader

/-! Association-list dict lemmas. -/

theorem dictGet_insert_self (d : Dict) (k : String) (v : PVal) :
    dictGet (dictInsert d k v) k = some v := by
  induction d with
  | nil => simp [dictInsert, dictGet]
  | cons kv rest ih =>
    by_cases h : kv.1 = k
    · simp [dictInsert, dictGet, h]
    · simp only [dictInsert, dictGet, h]
      simpa [dictGet, h] using ih

theorem dictGet_insert_other (d : Dict) (k k1 : String) (v : PVal) (hne : k1 ≠ k) :
    dictGet (dictInsert d k v) k1 = dictGet d k1 := by
  induction d with
  | nil =>
    have hkk : ¬k = k1 := fun h => hne h.symm
    simp [dictInsert, dictGet, hkk]
  | cons kv rest ih =>
    by_cases h : kv.1 = k
    · have h1 : ¬kv.1 = k1 := by
        intro h1
        exact hne (h1 ▸ h)
      have hkk : ¬k = k1 := by
        intro h2
        exact hne h2.symm
      simp [dictInsert, dictGet, h, h1, hkk]
    · simp only [dictInsert, if_neg h]
      by_cases h1 : kv.1 = k1
      · simp [dictGet, h1]
      · simp [dictGet, h1, ih]

theorem mem_dictKeys_insert (k k1 : String) (v : PVal) :
    ∀ d : Dict, k1 ∈ dictKeys (dictInsert d k v) → k1 = k ∨ k1 ∈ dictKeys d := by
  intro d
  induction d with
  | nil =>
    intro h
    simpa [dictInsert, dictKeys] using h
  | cons kv rest ih =>
    intro h
    by_cases hk : kv.1 = k
    · simp only [dictInsert, if_pos hk] at h
      simp only [dictKeys, List.map_cons, List.mem_cons] at h ⊢
      rcases h with h1 | h1
      · exact Or.inl (hk ▸ h1)
      · exact Or.inr (Or.inr h1)
    · simp only [dictInsert, if_neg hk] at h
      simp only [dictKeys, List.map_cons, List.mem_cons] at h ⊢
      rcases h with h1 | h1
      · exact Or.inr (Or.inl h1)
      · rcases ih h1 with h2 | h2
        · exact Or.inl h2
        · exact Or.inr (Or.inr h2)

/-! Padding/cutting. -/

theorem pad_or_cut_length (arr : List ℚ) (n : ℕ) : (pad_or_cut arr n).length = n := by
  rw [pad_or_cut]
  by_cases h : arr.length < n
  · rw [if_pos h]
    simp only [List.length_append, List.length_replicate]
    omega
  · rw [if_neg h]
    simp only [List.length_take]
    omega

theorem pad_or_cut_of_lt (arr : List ℚ) (n : ℕ) (h : arr.length < n) :
    pad_or_cut arr n = arr ++ List.replicate (n - arr.length) 0 := by
  rw [pad_or_cut, if_pos h]

theorem pad_or_cut_of_ge (arr : List ℚ) (n : ℕ) (h : n ≤ arr.length) :
    pad_or_cut arr n = arr.take n := by
  rw [pad_or_cut, if_neg (by omega)]

/-! `List.mapM` over `Option`. -/

theorem mapM_option_length_get {α β : Type} (f : α → Option β) :
    ∀ (xs : List α) (ys : List β), xs.mapM f = some ys →
      ys.length = xs.length ∧
        ∀ i (hx : i < xs.length) (hy : i < ys.length),
          f (xs.get ⟨i, hx⟩) = some (ys.get ⟨i, hy⟩) := by
  intro xs
  induction xs with
  | nil =>
    intro ys h
    simp only [List.mapM_nil, pure, Option.some.injEq] at h
    subst h
    refine ⟨rfl, ?_⟩
    intro i hx hy
    simp at hx
  | cons x rest ih =>
    intro ys h
    rw [List.mapM_cons] at h
    simp only [bind, Option.bind_eq_some, pure, Option.some.injEq] at h
    obtain ⟨y, hy, ys1, hys1, rfl⟩ := h
    obtain ⟨hlen, hget⟩ := ih ys1 hys1
    refine ⟨by simp [hlen], ?_⟩
    intro i hx hyy
    match i with
    | 0 => simpa using hy
    | Nat.succ j => simpa using hget j (by simpa using hx) (by simpa using hyy)

theorem mapM_option_mem {α β : Type} (f : α → Option β) (xs : List α) (ys : List β)
    (h : xs.mapM f = some ys) (y : β) (hy : y ∈ ys) : ∃ x ∈ xs, f x = some y := by
  obtain ⟨hlen, hget⟩ := mapM_option_length_get f xs ys h
  obtain ⟨⟨i, hi⟩, rfl⟩ := List.mem_iff_get.mp hy
  exact ⟨xs.get ⟨i, by omega⟩, List.get_mem xs i (by omega), hget i (by omega) hi⟩

/-! Characterization of the waveform assembly. -/

theorem buildRecord_spec (rows : List RawRow) (props : Dict) (len : ℕ) (iant : ℕ)
    (r : AntRecord) (h : buildRecord rows props len iant = some r) :
    getNum props "energy" = some r.energy ∧
    getNum props "zenith" = some r.zenith ∧
    getNum props "azimuth" = some r.azimuth ∧
    getNum props "lat" = some r.lat ∧
    getNum props "lon" = some r.lon ∧
    getNum props "ground" = some r.ground ∧
    getNum props "mag_str" = some r.mag_str ∧
    getNum props "mag_inc" = some r.mag_inc ∧
    getNum props "mag_dec" = some r.mag_dec ∧
    r.t = pad_or_cut ((antennaRows rows iant).map RawRow.t) len ∧
    r.Ex = pad_or_cut ((antennaRows rows iant).map RawRow.Ex) len ∧
    r.Ey = pad_or_cut ((antennaRows rows iant).map RawRow.Ey) len ∧
    r.Ez = pad_or_cut ((antennaRows rows iant).map RawRow.Ez) len := by
  simp only [buildRecord, bind, Option.bind_eq_some, Option.some.injEq] at h
  obtain ⟨e1, he, e2, hz, e3, ha, e4, hla, e5, hlo, e6, hg, e7, hms, e8, hmi, e9, hmd,
    first, hf, hr⟩ := h
  subst hr
  exact ⟨he, hz, ha, hla, hlo, hg, hms, hmi, hmd, rfl, rfl, rfl, rfl⟩

theorem assemble_eq (rows : List RawRow) (props : Dict) (recs : List AntRecord)
    (h : assembleWaveforms rows props = some recs) :
    ∃ A, antennaCount rows = some A ∧
      (List.range A.toNat).mapM (buildRecord rows props (commonLength rows.length A)) =
        some recs := by
  simp only [assembleWaveforms, bind, Option.bind_eq_some] at h
  obtain ⟨A, hA, h⟩ := h
  exact ⟨A, hA, h⟩

/-! Per-block lemmas for the `load_properties` line loop: each block leaves
every other key's lookup unchanged, and only adds its own key, and only
when its pattern matched. -/

theorem numStep_get_other (pat : List RSeg) (key : String) (line : List Char)
    (d d1 : Dict) (k : String) (h : numStep pat key line d = some d1)
    (hne : k ≠ key) : dictGet d1 k = dictGet d k := by
  cases hs : reSearch pat line with
  | none =>
    simp only [numStep, hs, Option.some.injEq] at h
    rw [← h]
  | some caps =>
    cases caps with
    | nil => simp [numStep, hs] at h
    | cons g gs =>
      simp only [numStep, hs, Option.map_eq_some'] at h
      obtain ⟨q, hq, rfl⟩ := h
      exact dictGet_insert_other d key k (.num q) hne

theorem particleStep_get_other (line : List Char) (d : Dict) (k : String)
    (hne : k ≠ "particle") : dictGet (particleStep line d) k = dictGet d k := by
  cases hs : reSearch particlePat line with
  | none => simp only [particleStep, hs]
  | some caps =>
    cases caps with
    | nil => simp only [particleStep, hs]
    | cons g gs =>
      simp only [particleStep, hs]
      exact dictGet_insert_other d "particle" k _ hne

theorem latLonStep_get_other (line : List Char) (d d1 : Dict) (k : String)
    (h : latLonStep line d = some d1) (hne1 : k ≠ "lat") (hne2 : k ≠ "lon") :
    dictGet d1 k = dictGet d k := by
  cases hs : reSearch latLonPat line with
  | none =>
    simp only [latLonStep, hs, Option.some.injEq] at h
    rw [← h]
  | some caps =>
    match caps with
    | [] => simp [latLonStep, hs] at h
    | [g1] => simp [latLonStep, hs] at h
    | g1 :: g2 :: gs =>
      simp only [latLonStep, hs, Option.bind_eq_some, Option.map_eq_some'] at h
      obtain ⟨la, hla, lo, hlo, rfl⟩ := h
      rw [dictGet_insert_other _ _ _ _ hne2, dictGet_insert_other _ _ _ _ hne1]

theorem energyStep_none (line : List Char) (d : Dict)
    (hs : reSearch energyPat line = none) : energyStep line d = some d := by
  simp [energyStep, hs]

theorem energyStep_some (line : List Char) (d d1 : Dict) (caps : List (List Char))
    (hs : reSearch energyPat line = some caps) (h : energyStep line d = some d1) :
    ∃ q, energyValue caps = some q ∧ d1 = dictInsert d "energy" (.num q) := by
  simp only [energyStep, hs, Option.map_eq_some'] at h
  obtain ⟨q, hq, h1⟩ := h
  exact ⟨q, hq, h1.symm⟩

/-- The effect of one line of `load_properties` on the `"energy"` entry:
no energy match leaves it unchanged; an energy match overwrites it with the
parsed value. -/
theorem procLine_energy (line : List Char) (d0 d : Dict)
    (h : procLine line d0 = some d) :
    (reSearch energyPat line = none → dictGet d "energy" = dictGet d0 "energy") ∧
    (∀ caps, reSearch energyPat line = some caps →
      ∃ q, energyValue caps = some q ∧ dictGet d "energy" = some (.num q)) := by
  simp only [procLine, bind, Option.bind_eq_some] at h
  obtain ⟨d1, h1, d2, h2, d3, h3, d4, h4, d5, h5, d6, h6, d7, h7, d8, h8, d9, h9,
    d10, h10, d11, h11, d12, h12, hfin⟩ := h
  have chain : dictGet d "energy" = dictGet d1 "energy" := by
    rw [numStep_get_other _ _ _ _ _ _ hfin (by decide),
      numStep_get_other _ _ _ _ _ _ h12 (by decide),
      numStep_get_other _ _ _ _ _ _ h11 (by decide),
      numStep_get_other _ _ _ _ _ _ h10 (by decide),
      numStep_get_other _ _ _ _ _ _ h9 (by decide),
      numStep_get_other _ _ _ _ _ _ h8 (by decide),
      numStep_get_other _ _ _ _ _ _ h7 (by decide),
      numStep_get_other _ _ _ _ _ _ h6 (by decide),
      numStep_get_other _ _ _ _ _ _ h5 (by decide),
      latLonStep_get_other _ _ _ _ h4 (by decide) (by decide),
      numStep_get_other _ _ _ _ _ _ h3 (by decide),
      numStep_get_other _ _ _ _ _ _ h2 (by decide),
      particleStep_get_other _ _ _ (by decide)]
  constructor
  · intro hs
    have he := energyStep_none line d0 hs
    rw [he] at h1
    injection h1 with h1
    rw [chain, h1]
  · intro caps hs
    obtain ⟨q, hq, h1⟩ := energyStep_some line d0 d1 caps hs h1
    refine ⟨q, hq, ?_⟩
    rw [chain, h1, dictGet_insert_self]

/-- The `"energy"` entry after the whole line loop is decided by the last
line the energy pattern matches. -/
theorem loadPropsFrom_energy :
    ∀ (lines : List String) (d0 d : Dict), loadPropsFrom d0 lines = some d →
      (lastEnergyMatch (lines.map String.data) = none ∧
        dictGet d "energy" = dictGet d0 "energy") ∨
      (∃ caps q, lastEnergyMatch (lines.map String.data) = some caps ∧
        energyValue caps = some q ∧ dictGet d "energy" = some (.num q)) := by
  intro lines
  induction lines with
  | nil =>
    intro d0 d h
    simp only [loadPropsFrom, Option.some.injEq] at h
    subst h
    exact Or.inl ⟨rfl, rfl⟩
  | cons line rest ih =>
    intro d0 d h
    simp only [loadPropsFrom, Option.bind_eq_some] at h
    obtain ⟨d1, h1, h2⟩ := h
    have hpl := procLine_energy line.data d0 d1 h1
    rcases ih d1 d h2 with ⟨hnone, hpres⟩ | ⟨caps, q, hsome, hval, hget⟩
    · cases hs : reSearch energyPat line.data with
      | none =>
        left
        constructor
        · simp only [List.map_cons, lastEnergyMatch, hnone, hs]
        · rw [hpres, hpl.1 hs]
      | some caps =>
        right
        obtain ⟨q, hq, hg⟩ := hpl.2 caps hs
        refine ⟨caps, q, ?_, hq, by rw [hpres, hg]⟩
        simp only [List.map_cons, lastEnergyMatch, hnone, hs]
    · right
      refine ⟨caps, q, ?_, hval, hget⟩
      simp only [List.map_cons, lastEnergyMatch, hsome]

/-! Per-block key-set lemmas. -/

theorem numStep_keys (pat : List RSeg) (key : String) (line : List Char)
    (d d1 : Dict) (k : String) (h : numStep pat key line d = some d1)
    (hk : k ∈ dictKeys d1) :
    k ∈ dictKeys d ∨ (k = key ∧ (reSearch pat line).isSome = true) := by
  cases hs : reSearch pat line with
  | none =>
    simp only [numStep, hs, Option.some.injEq] at h
    rw [← h] at hk
    exact Or.inl hk
  | some caps =>
    cases caps with
    | nil => simp [numStep, hs] at h
    | cons g gs =>
      simp only [numStep, hs, Option.map_eq_some'] at h
      obtain ⟨q, hq, rfl⟩ := h
      rcases mem_dictKeys_insert key k (.num q) d hk with h1 | h1
      · exact Or.inr ⟨h1, rfl⟩
      · exact Or.inl h1

theorem particleStep_keys (line : List Char) (d : Dict) (k : String)
    (hk : k ∈ dictKeys (particleStep line d)) :
    k ∈ dictKeys d ∨ (k = "particle" ∧ (reSearch particlePat line).isSome = true) := by
  cases hs : reSearch particlePat line with
  | none =>
    simp only [particleStep, hs] at hk
    exact Or.inl hk
  | some caps =>
    cases caps with
    | nil =>
      simp only [particleStep, hs] at hk
      exact Or.inl hk
    | cons g gs =>
      simp only [particleStep, hs] at hk
      rcases mem_dictKeys_insert "particle" k _ d hk with h1 | h1
      · exact Or.inr ⟨h1, rfl⟩
      · exact Or.inl h1

theorem latLonStep_keys (line : List Char) (d d1 : Dict) (k : String)
    (h : latLonStep line d = some d1) (hk : k ∈ dictKeys d1) :
    k ∈ dictKeys d ∨ ((k = "lat" ∨ k = "lon") ∧ (reSearch latLonPat line).isSome = true) := by
  cases hs : reSearch latLonPat line with
  | none =>
    simp only [latLonStep, hs, Option.some.injEq] at h
    rw [← h] at hk
    exact Or.inl hk
  | some caps =>
    match caps with
    | [] => simp [latLonStep, hs] at h
    | [g1] => simp [latLonStep, hs] at h
    | g1 :: g2 :: gs =>
      simp only [latLonStep, hs, Option.bind_eq_some, Option.map_eq_some'] at h
      obtain ⟨la, hla, lo, hlo, rfl⟩ := h
      rcases mem_dictKeys_insert "lon" k _ _ hk with h1 | h1
      · exact Or.inr ⟨Or.inr h1, rfl⟩
      · rcases mem_dictKeys_insert "lat" k _ d h1 with h2 | h2
        · exact Or.inr ⟨Or.inl h2, rfl⟩
        · exact Or.inl h2

theorem energyStep_keys (line : List Char) (d d1 : Dict) (k : String)
    (h : energyStep line d = some d1) (hk : k ∈ dictKeys d1) :
    k ∈ dictKeys d ∨ (k = "energy" ∧ (reSearch energyPat line).isSome = true) := by
  cases hs : reSearch energyPat line with
  | none =>
    simp only [energyStep, hs, Option.some.injEq] at h
    rw [← h] at hk
    exact Or.inl hk
  | some caps =>
    simp only [energyStep, hs, Option.map_eq_some'] at h
    obtain ⟨q, hq, rfl⟩ := h
    rcases mem_dictKeys_insert "energy" k (.num q) d hk with h1 | h1
    · exact Or.inr ⟨h1, rfl⟩
    · exact Or.inl h1

/-- One line can only add keys of the fixed set, each gated by its own
pattern firing on that line. -/
theorem procLine_keys (line : List Char) (d0 d : Dict) (k : String)
    (h : procLine line d0 = some d) (hk : k ∈ dictKeys d) :
    k ∈ dictKeys d0 ∨ (k ∈ allowedKeys ∧ keyFired k line = true) := by
  simp only [procLine, bind, Option.bind_eq_some] at h
  obtain ⟨d1, h1, d2, h2, d3, h3, d4, h4, d5, h5, d6, h6, d7, h7, d8, h8, d9, h9,
    d10, h10, d11, h11, d12, h12, hfin⟩ := h
  rcases numStep_keys _ _ _ _ _ _ hfin hk with hk | ⟨rfl, hf⟩
  · rcases numStep_keys _ _ _ _ _ _ h12 hk with hk | ⟨rfl, hf⟩
    · rcases numStep_keys _ _ _ _ _ _ h11 hk with hk | ⟨rfl, hf⟩
      · rcases numStep_keys _ _ _ _ _ _ h10 hk with hk | ⟨rfl, hf⟩
        · rcases numStep_keys _ _ _ _ _ _ h9 hk with hk | ⟨rfl, hf⟩
          · rcases numStep_keys _ _ _ _ _ _ h8 hk with hk | ⟨rfl, hf⟩
            · rcases numStep_keys _ _ _ _ _ _ h7 hk with hk | ⟨rfl, hf⟩
              · rcases numStep_keys _ _ _ _ _ _ h6 hk with hk | ⟨rfl, hf⟩
                · rcases numStep_keys _ _ _ _ _ _ h5 hk with hk | ⟨rfl, hf⟩
                  · rcases latLonStep_keys _ _ _ _ h4 hk with hk | ⟨hor, hf⟩
                    · rcases numStep_keys _ _ _ _ _ _ h3 hk with hk | ⟨rfl, hf⟩
                      · rcases numStep_keys _ _ _ _ _ _ h2 hk with hk | ⟨rfl, hf⟩
                        · rcases particleStep_keys _ _ _ hk with hk | ⟨rfl, hf⟩
                          · rcases energyStep_keys _ _ _ _ h1 hk with hk | ⟨rfl, hf⟩
                            · exact Or.inl hk
                            · exact Or.inr ⟨by decide, by simpa [keyFired] using hf⟩
                          · exact Or.inr ⟨by decide, by simpa [keyFired] using hf⟩
                        · exact Or.inr ⟨by decide, by simpa [keyFired] using hf⟩
                      · exact Or.inr ⟨by decide, by simpa [keyFired] using hf⟩
                    · rcases hor with rfl | rfl
                      · exact Or.inr ⟨by decide, by simpa [keyFired] using hf⟩
                      · exact Or.inr ⟨by decide, by simpa [keyFired] using hf⟩
                  · exact Or.inr ⟨by decide, by simpa [keyFired] using hf⟩
                · exact Or.inr ⟨by decide, by simpa [keyFired] using hf⟩
              · exact Or.inr ⟨by decide, by simpa [keyFired] using hf⟩
            · exact Or.inr ⟨by decide, by simpa [keyFired] using hf⟩
          · exact Or.inr ⟨by decide, by simpa [keyFired] using hf⟩
        · exact Or.inr ⟨by decide, by simpa [keyFired] using hf⟩
      · exact Or.inr ⟨by decide, by simpa [keyFired] using hf⟩
    · exact Or.inr ⟨by decide, by simpa [keyFired] using hf⟩
  · exact Or.inr ⟨by decide, by simpa [keyFired] using hf⟩

/-- The line loop only adds keys of the fixed set, each witnessed by a line
its pattern fires on. -/
theorem loadPropsFrom_keys :
    ∀ (lines : List String) (d0 d : Dict), loadPropsFrom d0 lines = some d →
      ∀ k ∈ dictKeys d, k ∈ dictKeys d0 ∨
        (k ∈ allowedKeys ∧ ∃ line ∈ lines, keyFired k line.data = true) := by
  intro lines
  induction lines with
  | nil =>
    intro d0 d h k hk
    simp only [loadPropsFrom, Option.some.injEq] at h
    subst h
    exact Or.inl hk
  | cons line rest ih =>
    intro d0 d h k hk
    simp only [loadPropsFrom, Option.bind_eq_some] at h
    obtain ⟨d1, h1, h2⟩ := h
    rcases ih d1 d h2 k hk with hk1 | ⟨hall, l, hl, hfired⟩
    · rcases procLine_keys line.data d0 d1 k h1 hk1 with hk0 | ⟨hall, hfired⟩
      · exact Or.inl hk0
      · exact Or.inr ⟨hall, line, List.mem_cons_self line rest, hfired⟩
    · exact Or.inr ⟨hall, l, List.mem_cons_of_mem line hl, hfired⟩

end Loader

/-- Claim C3: for every raw waveform matrix whose antenna-index column ends
at value A (the antenna count) and which has R total rows, every produced
antenna record's time series and all three field-component series have
length exactly ceil(R / A), no matter how unevenly the rows are distributed
among the antennas. -/
theorem claim_C3_series_length (rows : List Loader.RawRow) (props : Loader.Dict)
    (A : ℤ) (recs : List Loader.AntRecord) (r : Loader.AntRecord)
    (hA : Loader.antennaCount rows = some A)
    (hload : Loader.assembleWaveforms rows props = some recs)
    (hr : r ∈ recs) :
    r.t.length = (⌈(rows.length : ℚ) / (A : ℚ)⌉).toNat ∧
    r.Ex.length = (⌈(rows.length : ℚ) / (A : ℚ)⌉).toNat ∧
    r.Ey.length = (⌈(rows.length : ℚ) / (A : ℚ)⌉).toNat ∧
    r.Ez.length = (⌈(rows.length : ℚ) / (A : ℚ)⌉).toNat := by
  obtain ⟨A1, hA1, hmap⟩ := Loader.assemble_eq rows props recs hload
  rw [hA] at hA1
  injection hA1 with hA2
  subst hA2
  obtain ⟨i, hi, hb⟩ := Loader.mapM_option_mem _ _ _ hmap r hr
  obtain ⟨-, -, -, -, -, -, -, -, -, ht, hEx, hEy, hEz⟩ :=
    Loader.buildRecord_spec _ _ _ _ _ hb
  rw [← commonLength_eq]
  exact ⟨by rw [ht, Loader.pad_or_cut_length], by rw [hEx, Loader.pad_or_cut_length],
    by rw [hEy, Loader.pad_or_cut_length], by rw [hEz, Loader.pad_or_cut_length]⟩

/-- Witness for C3 at the concrete uneven four-row, two-antenna dump. -/
theorem claim_C3_series_length_witness :
    Loader.antennaCount Loader.sampleRows = some 2 ∧
    Loader.assembleWaveforms Loader.sampleRows Loader.sampleProps =
      some Loader.sampleRecs ∧
    Loader.sampleRecs.get ⟨0, by decide⟩ ∈ Loader.sampleRecs ∧
    ((Loader.sampleRecs.get ⟨0, by decide⟩).t.length =
      (⌈((Loader.sampleRows.length : ℕ) : ℚ) / ((2 : ℤ) : ℚ)⌉).toNat ∧
     (Loader.sampleRecs.get ⟨0, by decide⟩).Ex.length =
      (⌈((Loader.sampleRows.length : ℕ) : ℚ) / ((2 : ℤ) : ℚ)⌉).toNat ∧
     (Loader.sampleRecs.get ⟨0, by decide⟩).Ey.length =
      (⌈((Loader.sampleRows.length : ℕ) : ℚ) / ((2 : ℤ) : ℚ)⌉).toNat ∧
     (Loader.sampleRecs.get ⟨0, by decide⟩).Ez.length =
      (⌈((Loader.sampleRows.length : ℕ) : ℚ) / ((2 : ℤ) : ℚ)⌉).toNat) :=
  ⟨by decide, by decide, by decide,
   claim_C3_series_length Loader.sampleRows Loader.sampleProps 2 Loader.sampleRecs
     (Loader.sampleRecs.get ⟨0, by decide⟩) (by decide) (by decide) (by decide)⟩

/-- Claim C4: in waveform assembly, an antenna whose selected row subset has
fewer rows than the common length gets its series extended with trailing
zeros up to the common length, and an antenna whose subset has more rows
than the common length gets its series truncated to the first common-length
samples (not the last). -/
theorem claim_C4_pad_or_cut (rows : List Loader.RawRow) (props : Loader.Dict)
    (recs : List Loader.AntRecord) (A : ℤ) (i : ℕ) (hi : i < recs.length)
    (hA : Loader.antennaCount rows = some A)
    (hload : Loader.assembleWaveforms rows props = some recs) :
    ((Loader.antennaRows rows i).length < Loader.commonLength rows.length A →
      (recs.get ⟨i, hi⟩).t = (Loader.antennaRows rows i).map Loader.RawRow.t ++
        List.replicate
          (Loader.commonLength rows.length A - (Loader.antennaRows rows i).length) 0 ∧
      (recs.get ⟨i, hi⟩).Ex = (Loader.antennaRows rows i).map Loader.RawRow.Ex ++
        List.replicate
          (Loader.commonLength rows.length A - (Loader.antennaRows rows i).length) 0 ∧
      (recs.get ⟨i, hi⟩).Ey = (Loader.antennaRows rows i).map Loader.RawRow.Ey ++
        List.replicate
          (Loader.commonLength rows.length A - (Loader.antennaRows rows i).length) 0 ∧
      (recs.get ⟨i, hi⟩).Ez = (Loader.antennaRows rows i).map Loader.RawRow.Ez ++
        List.replicate
          (Loader.commonLength rows.length A - (Loader.antennaRows rows i).length) 0) ∧
    (Loader.commonLength rows.length A ≤ (Loader.antennaRows rows i).length →
      (recs.get ⟨i, hi⟩).t =
        ((Loader.antennaRows rows i).map Loader.RawRow.t).take
          (Loader.commonLength rows.length A) ∧
      (recs.get ⟨i, hi⟩).Ex =
        ((Loader.antennaRows rows i).map Loader.RawRow.Ex).take
          (Loader.commonLength rows.length A) ∧
      (recs.get ⟨i, hi⟩).Ey =
        ((Loader.antennaRows rows i).map Loader.RawRow.Ey).take
          (Loader.commonLength rows.length A) ∧
      (recs.get ⟨i, hi⟩).Ez =
        ((Loader.antennaRows rows i).map Loader.RawRow.Ez).take
          (Loader.commonLength rows.length A)) := by
  obtain ⟨A1, hA1, hmap⟩ := Loader.assemble_eq rows props recs hload
  rw [hA] at hA1
  injection hA1 with hA2
  subst hA2
  obtain ⟨hlen, hget⟩ := Loader.mapM_option_length_get _ _ _ hmap
  have hx : i < (List.range A.toNat).length := by omega
  have hb := hget i hx hi
  rw [List.get_eq_getElem, List.getElem_range] at hb
  obtain ⟨-, -, -, -, -, -, -, -, -, ht, hEx, hEy, hEz⟩ :=
    Loader.buildRecord_spec _ _ _ _ _ hb
  constructor
  · intro hlt
    refine ⟨?_, ?_, ?_, ?_⟩
    · rw [ht, Loader.pad_or_cut_of_lt _ _ (by simpa using hlt), List.length_map]
    · rw [hEx, Loader.pad_or_cut_of_lt _ _ (by simpa using hlt), List.length_map]
    · rw [hEy, Loader.pad_or_cut_of_lt _ _ (by simpa using hlt), List.length_map]
    · rw [hEz, Loader.pad_or_cut_of_lt _ _ (by simpa using hlt), List.length_map]
  · intro hge
    refine ⟨?_, ?_, ?_, ?_⟩
    · rw [ht, Loader.pad_or_cut_of_ge _ _ (by simpa using hge)]
    · rw [hEx, Loader.pad_or_cut_of_ge _ _ (by simpa using hge)]
    · rw [hEy, Loader.pad_or_cut_of_ge _ _ (by simpa using hge)]
    · rw [hEz, Loader.pad_or_cut_of_ge _ _ (by simpa using hge)]

/-- Witness for C4: antenna 1 of the sample dump has three rows against a
common length of two, so its time series is cut to the first two samples;
antenna 2 has one row and is zero-padded. -/
theorem claim_C4_pad_or_cut_witness :
    ((Loader.sampleRecs.get ⟨0, by decide⟩).t =
      ((Loader.antennaRows Loader.sampleRows 0).map Loader.RawRow.t).take
        (Loader.commonLength Loader.sampleRows.length 2)) ∧
    ((Loader.sampleRecs.get ⟨1, by decide⟩).t =
      (Loader.antennaRows Loader.sampleRows 1).map Loader.RawRow.t ++
        List.replicate
          (Loader.commonLength Loader.sampleRows.length 2 -
            (Loader.antennaRows Loader.sampleRows 1).length) 0) :=
  ⟨((claim_C4_pad_or_cut Loader.sampleRows Loader.sampleProps Loader.sampleRecs 2 0
      (by decide) (by decide) (by decide)).2 (by decide)).1,
   ((claim_C4_pad_or_cut Loader.sampleRows Loader.sampleProps Loader.sampleRecs 2 1
      (by decide) (by decide) (by decide)).1 (by decide)).1⟩

/-- Counterexample to claim C5: on a dump with at least one antenna and a
properties mapping missing the scalar property `mag_dec` (all other eight
present), the assembly does not succeed: the source indexes `props[key]`
for a fixed list of nine keys, so the absent key raises KeyError. -/
theorem claim_C5_counterexample :
    Loader.assembleWaveforms Loader.sampleRows Loader.samplePropsMissing = none := by
  decide

/-- Claim C5 (amended): waveform assembly copies exactly the nine scalar
properties energy, zenith, azimuth, lat, lon, ground, mag_str, mag_inc,
mag_dec from the mapping into each record, matched by field name, and it
requires all nine: whenever assembly succeeds with at least one antenna,
every one of the nine keys was present in the mapping (a missing key is a
KeyError, not an omission). -/
theorem claim_C5_nine_properties (rows : List Loader.RawRow) (props : Loader.Dict)
    (recs : List Loader.AntRecord)
    (hload : Loader.assembleWaveforms rows props = some recs) :
    (∀ r ∈ recs,
      Loader.getNum props "energy" = some r.energy ∧
      Loader.getNum props "zenith" = some r.zenith ∧
      Loader.getNum props "azimuth" = some r.azimuth ∧
      Loader.getNum props "lat" = some r.lat ∧
      Loader.getNum props "lon" = some r.lon ∧
      Loader.getNum props "ground" = some r.ground ∧
      Loader.getNum props "mag_str" = some r.mag_str ∧
      Loader.getNum props "mag_inc" = some r.mag_inc ∧
      Loader.getNum props "mag_dec" = some r.mag_dec) ∧
    (recs ≠ [] → ∀ k ∈ Loader.nineKeys, (Loader.getNum props k).isSome = true) := by
  obtain ⟨A, hA, hmap⟩ := Loader.assemble_eq rows props recs hload
  constructor
  · intro r hr
    obtain ⟨i, hi, hb⟩ := Loader.mapM_option_mem _ _ _ hmap r hr
    obtain ⟨he, hz, ha, hla, hlo, hg, hms, hmi, hmd, -, -, -, -⟩ :=
      Loader.buildRecord_spec _ _ _ _ _ hb
    exact ⟨he, hz, ha, hla, hlo, hg, hms, hmi, hmd⟩
  · intro hne k hk
    obtain ⟨hlen, hget⟩ := Loader.mapM_option_length_get _ _ _ hmap
    have h0 : 0 < recs.length := List.length_pos.mpr hne
    have hx : 0 < (List.range A.toNat).length := by omega
    have hb := hget 0 hx h0
    rw [List.get_eq_getElem, List.getElem_range] at hb
    obtain ⟨he, hz, ha, hla, hlo, hg, hms, hmi, hmd, -, -, -, -⟩ :=
      Loader.buildRecord_spec _ _ _ _ _ hb
    simp only [Loader.nineKeys, List.mem_cons, List.not_mem_nil, or_false] at hk
    rcases hk with rfl | rfl | rfl | rfl | rfl | rfl | rfl | rfl | rfl
    · rw [he]; rfl
    · rw [hz]; rfl
    · rw [ha]; rfl
    · rw [hla]; rfl
    · rw [hlo]; rfl
    · rw [hg]; rfl
    · rw [hms]; rfl
    · rw [hmi]; rfl
    · rw [hmd]; rfl

/-- Witness for the amended C5 at the sample dump with all nine properties
present. -/
theorem claim_C5_nine_properties_witness :
    Loader.assembleWaveforms Loader.sampleRows Loader.sampleProps =
      some Loader.sampleRecs ∧
    (∀ r ∈ Loader.sampleRecs,
      Loader.getNum Loader.sampleProps "energy" = some r.energy ∧
      Loader.getNum Loader.sampleProps "zenith" = some r.zenith ∧
      Loader.getNum Loader.sampleProps "azimuth" = some r.azimuth ∧
      Loader.getNum Loader.sampleProps "lat" = some r.lat ∧
      Loader.getNum Loader.sampleProps "lon" = some r.lon ∧
      Loader.getNum Loader.sampleProps "ground" = some r.ground ∧
      Loader.getNum Loader.sampleProps "mag_str" = some r.mag_str ∧
      Loader.getNum Loader.sampleProps "mag_inc" = some r.mag_inc ∧
      Loader.getNum Loader.sampleProps "mag_dec" = some r.mag_dec) ∧
    (Loader.sampleRecs ≠ [] →
      ∀ k ∈ Loader.nineKeys, (Loader.getNum Loader.sampleProps k).isSome = true) :=
  ⟨by decide,
   (claim_C5_nine_properties Loader.sampleRows Loader.sampleProps Loader.sampleRecs
     (by decide)).1,
   (claim_C5_nine_properties Loader.sampleRows Loader.sampleProps Loader.sampleRecs
     (by decide)).2⟩

/-- Claim C8: when the waveform cache file exists, the loader deserializes
and returns it directly, with no requirement that the raw dump or the
report exist and no change to the directory; and a second call with caching
enabled returns the same structured result as the first. -/
theorem claim_C8_cache :
    (∀ (fs : Loader.SimFS) (c : List Loader.AntRecord) (wc : Bool),
      fs.cache = some c → Loader.load_waveforms fs wc = some (c, fs)) ∧
    (∀ (fs fs1 : Loader.SimFS) (res : List Loader.AntRecord),
      Loader.load_waveforms fs true = some (res, fs1) →
      Loader.load_waveforms fs1 true = some (res, fs1)) := by
  constructor
  · intro fs c wc hc
    simp only [Loader.load_waveforms, hc]
  · intro fs fs1 res h
    cases hc : fs.cache with
    | some c =>
      simp only [Loader.load_waveforms, hc, Option.some.injEq, Prod.mk.injEq] at h
      obtain ⟨h2, h3⟩ := h
      subst h2
      subst h3
      simp only [Loader.load_waveforms, hc]
    | none =>
      simp only [Loader.load_waveforms, hc] at h
      cases hd : fs.rawDump with
      | none => simp [hd] at h
      | some rows =>
        simp only [hd] at h
        cases hs : fs.sry with
        | none => simp [hs] at h
        | some lines =>
          simp only [hs] at h
          cases hp : Loader.load_properties lines with
          | none => simp [hp] at h
          | some props =>
            simp only [hp] at h
            cases hw : Loader.assembleWaveforms rows props with
            | none => simp [hw] at h
            | some data =>
              simp only [hw, if_pos, Option.some.injEq, Prod.mk.injEq] at h
              obtain ⟨h2, h3⟩ := h
              subst h2
              subst h3
              simp only [Loader.load_waveforms]

/-- Witness for C8: a directory whose cache exists while both the raw dump
and the report are absent still loads, returns the cached records, and a
repeated call agrees. -/
theorem claim_C8_cache_witness :
    Loader.sampleFS.cache = some Loader.sampleRecs ∧
    Loader.load_waveforms Loader.sampleFS true =
      some (Loader.sampleRecs, Loader.sampleFS) ∧
    Loader.sampleFS.rawDump = none ∧
    Loader.load_waveforms Loader.sampleFS true =
      some (Loader.sampleRecs, Loader.sampleFS) :=
  ⟨by decide,
   (claim_C8_cache).1 Loader.sampleFS Loader.sampleRecs true (by decide),
   by decide,
   (claim_C8_cache).2 Loader.sampleFS Loader.sampleFS Loader.sampleRecs
     ((claim_C8_cache).1 Loader.sampleFS Loader.sampleRecs true (by decide))⟩

/-- Claim C6: table classification is ordered-first-match over the markers:
"TABLE 5" gives ground, then "Longitudinal development: Energy" gives
energy-distribution, then "Longitudinal development:" gives longitudinal,
then "Lateral distribution:" or "Unweighted lateral distribution:" gives
lateral, then "Energy distribution" gives energy-distribution; in
particular a file whose prefix contains "Longitudinal development: Energy"
(hence also "Longitudinal development:") never classifies as longitudinal,
and classifies as energy-distribution when "TABLE 5" is absent. -/
theorem claim_C6_ordered_first_match :
    (∀ f c : String, Table.parse_table_type f c = Table.firstMatchClassify c) ∧
    (∀ f c : String,
      Table.containsSub ("Longitudinal development: Energy").data (c.data.take 600) = true →
      Table.parse_table_type f c ≠ .ok "long") ∧
    (∀ f c : String,
      Table.containsSub ("TABLE 5").data (c.data.take 600) = false →
      Table.containsSub ("Longitudinal development: Energy").data (c.data.take 600) = true →
      Table.parse_table_type f c = .ok "energy") := by
  refine ⟨?_, ?_, ?_⟩
  · intro f c
    simp only [Table.parse_table_type, Table.firstMatchClassify, Table.claimMarkerTable,
      List.find?]
    by_cases h1 : Table.containsSub ("TABLE 5").data (c.data.take 600) = true
    · simp [h1]
    · by_cases h2 : Table.containsSub ("Longitudinal development: Energy").data
        (c.data.take 600) = true
      · simp [h1, h2]
      · by_cases h3 : Table.containsSub ("Longitudinal development:").data
          (c.data.take 600) = true
        · simp [h1, h2, h3]
        · by_cases h4 : Table.containsSub ("Lateral distribution:").data
            (c.data.take 600) = true
          · simp [h1, h2, h3, h4]
          · by_cases h5 : Table.containsSub ("Unweighted lateral distribution:").data
              (c.data.take 600) = true
            · simp [h1, h2, h3, h4, h5]
            · by_cases h6 : Table.containsSub ("Energy distribution").data
                (c.data.take 600) = true
              · simp [h1, h2, h3, h4, h5, h6]
              · simp [h1, h2, h3, h4, h5, h6]
  · intro f c h
    simp only [Table.parse_table_type, h]
    by_cases h1 : Table.containsSub ("TABLE 5").data (c.data.take 600) = true
    · simp [h1]
    · simp [h1]
  · intro f c h1 h2
    simp [Table.parse_table_type, h1, h2]

/-- Witness for C6: a prefix holding both longitudinal markers and no
"TABLE 5" classifies as energy-distribution, not longitudinal. -/
theorem claim_C6_ordered_first_match_witness :
    Table.parse_table_type "t.t1" "Longitudinal development: Energy of gammas" =
      Table.firstMatchClassify "Longitudinal development: Energy of gammas" ∧
    Table.parse_table_type "t.t1" "Longitudinal development: Energy of gammas" ≠
      .ok "long" ∧
    Table.parse_table_type "t.t1" "Longitudinal development: Energy of gammas" =
      .ok "energy" :=
  ⟨claim_C6_ordered_first_match.1 "t.t1" "Longitudinal development: Energy of gammas",
   claim_C6_ordered_first_match.2.1 "t.t1" "Longitudinal development: Energy of gammas"
     (by decide),
   claim_C6_ordered_first_match.2.2 "t.t1" "Longitudinal development: Energy of gammas"
     (by decide) (by decide)⟩

/-- Counterexample to claim C7: with no marker present, the classifier
raises ValueError with the fixed message "Unknown table type.", in which
the offending file's name does not occur. -/
theorem claim_C7_counterexample :
    Table.parse_table_type "foo.t1" "no markers here" = .error "Unknown table type." ∧
    Table.containsSub ("foo.t1").data ("Unknown table type.").data = false :=
  ⟨rfl, by decide⟩

/-- Claim C7 (amended): when none of the known content markers is found in
the table file's prefix, classification fails with a fatal error, whose
message is the fixed string "Unknown table type." (the offending file is
not named in it). -/
theorem claim_C7_unknown_marker (f c : String)
    (h : ∀ m ∈ Table.claimMarkerTable, Table.containsSub m.1.data (c.data.take 600) = false) :
    Table.parse_table_type f c = .error "Unknown table type." := by
  have h1 := h ("TABLE 5", "ground") (by simp [Table.claimMarkerTable])
  have h2 := h ("Longitudinal development: Energy", "energy") (by simp [Table.claimMarkerTable])
  have h3 := h ("Longitudinal development:", "long") (by simp [Table.claimMarkerTable])
  have h4 := h ("Lateral distribution:", "lateral") (by simp [Table.claimMarkerTable])
  have h5 := h ("Unweighted lateral distribution:", "lateral") (by simp [Table.claimMarkerTable])
  have h6 := h ("Energy distribution", "energy") (by simp [Table.claimMarkerTable])
  simp [Table.parse_table_type, h1, h2, h3, h4, h5, h6]

/-- Witness for the amended C7 at a concrete marker-free file. -/
theorem claim_C7_unknown_marker_witness :
    (∀ m ∈ Table.claimMarkerTable,
      Table.containsSub m.1.data (("no markers here").data.take 600) = false) ∧
    Table.parse_table_type "foo.t1" "no markers here" = .error "Unknown table type." :=
  ⟨by decide, claim_C7_unknown_marker "foo.t1" "no markers here" (by decide)⟩

/-- Claim C9: every successfully loaded physics table, regardless of which
of the four table types it is and which quantity names are present, carries
exactly the fixed units metadata mapping depth: g/cm^2, length: m,
time: ns, angle: deg, energy: GeV, attached unconditionally. -/
theorem claim_C9_units (f : String) (ex : Bool) (c : String) (raw : Table.RawTable)
    (da : Table.DataArray) (h : Table.load_table f ex c raw = .ok da) :
    da.units = [("depth", "g/cm^2"), ("length", "m"), ("time", "ns"),
      ("angle", "deg"), ("energy", "GeV")] := by
  rw [Table.load_table] at h
  split at h
  · simp at h
  · split at h
    · simp at h
    · split at h
      · injection h with h1
        rw [← h1]
        rfl
      · simp at h

/-- Claim C1: for every report whose effective (last-matching)
primary-energy line carries magnitude m and a unit suffix among PeV, EeV,
ZeV, the extracted "energy" value equals m * 10 ^ (unit_exponent - 18)
with unit_exponent 15, 18, 21 respectively. -/
theorem claim_C1_energy_formula (lines : List String) (d : Loader.Dict)
    (g1 g2 : List Char) (m : ℚ) (e : ℤ)
    (hload : Loader.load_properties lines = some d)
    (hlast : Loader.lastEnergyMatch (lines.map String.data) = some [g1, g2])
    (hm : Loader.parseFloat g1 = some m)
    (hunit : (String.mk g2 = "PeV" ∧ e = 15) ∨ (String.mk g2 = "EeV" ∧ e = 18) ∨
      (String.mk g2 = "ZeV" ∧ e = 21)) :
    Loader.dictGet d "energy" = some (.num (m * (10 : ℚ) ^ (e - 18))) := by
  rcases Loader.loadPropsFrom_energy lines [] d hload with ⟨hnone, -⟩ |
    ⟨caps, q, hsome, hval, hget⟩
  · rw [hlast] at hnone
    exact absurd hnone (by simp)
  · rw [hlast] at hsome
    injection hsome with hcaps
    subst hcaps
    have hexp : Loader.unitExponent (String.mk g2) = some e := by
      rcases hunit with ⟨hu, rfl⟩ | ⟨hu, rfl⟩ | ⟨hu, rfl⟩ <;> rw [hu] <;> rfl
    simp only [Loader.energyValue, hm, Option.some_bind, Loader.parse_energy, hexp,
      Option.map_some', Option.some.injEq] at hval
    rw [hget, ← hval, qmul_eq, pow10_eq]

/-- Witness for C1 at a one-line report with magnitude 1.50 and unit EeV. -/
theorem claim_C1_energy_formula_witness :
    Loader.load_properties ["Primary energy: 1.50 EeV"] =
      some [("energy", Loader.PVal.num (mkRat 3 2))] ∧
    Loader.lastEnergyMatch (["Primary energy: 1.50 EeV"].map String.data) =
      some [("1.50").data, ("EeV").data] ∧
    Loader.parseFloat ("1.50").data = some (mkRat 3 2) ∧
    Loader.dictGet [("energy", Loader.PVal.num (mkRat 3 2))] "energy" =
      some (.num (mkRat 3 2 * (10 : ℚ) ^ ((18 : ℤ) - 18))) :=
  ⟨by decide, by decide, by decide,
   claim_C1_energy_formula ["Primary energy: 1.50 EeV"]
     [("energy", Loader.PVal.num (mkRat 3 2))] ("1.50").data ("EeV").data
     (mkRat 3 2) 18 (by decide) (by decide) (by decide)
     (Or.inr (Or.inl ⟨rfl, rfl⟩))⟩

/-- Counterexample to claim C2: a report whose primary-energy line has
magnitude 10.0 with unit PeV yields energy 10 * 10^(15-18) = 1/100, which
is not the claimed 1e-3. -/
theorem claim_C2_counterexample :
    ((Loader.load_properties ["Primary energy: 10.0 PeV"]).bind fun d =>
      Loader.dictGet d "energy") = some (.num (mkRat 1 100)) ∧
    (mkRat 1 100 : ℚ) ≠ 1e-3 := by
  constructor
  · decide
  · rw [Rat.mkRat_eq_div]
    norm_num

/-- Claim C2 (amended): extracting properties from a report whose
primary-energy line has magnitude 1.0 with unit EeV yields energy 1.0, and
from one whose line has magnitude 10.0 with unit PeV yields energy 1e-2. -/
theorem claim_C2_examples :
    ((Loader.load_properties ["Primary energy: 1.0 EeV"]).bind fun d =>
      Loader.dictGet d "energy") = some (.num 1) ∧
    ((Loader.load_properties ["Primary energy: 10.0 PeV"]).bind fun d =>
      Loader.dictGet d "energy") = some (.num (mkRat 1 100)) ∧
    (mkRat 1 100 : ℚ) = 1e-2 := by
  refine ⟨by decide, by decide, ?_⟩
  rw [Rat.mkRat_eq_div]
  norm_num

/-- Claim C10: the key set of the mapping the properties extractor returns
is a subset of the fixed fifteen-key set, and each key appears only when
its label pattern matched some line of the report. -/
theorem claim_C10_key_set (lines : List String) (d : Loader.Dict)
    (hload : Loader.load_properties lines = some d) (k : String)
    (hk : k ∈ Loader.dictKeys d) :
    k ∈ Loader.allowedKeys ∧ ∃ line ∈ lines, Loader.keyFired k line.data = true := by
  rcases Loader.loadPropsFrom_keys lines [] d hload k hk with h0 | hdone
  · simp [Loader.dictKeys] at h0
  · exact hdone

/-- Witness for C10 at a one-line report that sets only the zenith. -/
theorem claim_C10_key_set_witness :
    Loader.load_properties ["Primary zenith angle: 10.0 deg"] =
      some [("zenith", Loader.PVal.num 10)] ∧
    "zenith" ∈ Loader.dictKeys [("zenith", Loader.PVal.num 10)] ∧
    ("zenith" ∈ Loader.allowedKeys ∧
      ∃ line ∈ ["Primary zenith angle: 10.0 deg"],
        Loader.keyFired "zenith" line.data = true) :=
  ⟨by decide, by decide,
   claim_C10_key_set ["Primary zenith angle: 10.0 deg"]
     [("zenith", Loader.PVal.num 10)] (by decide) "zenith" (by decide)⟩

/-- Witness for C9: a concrete ground table loads with the fixed units. -/
theorem claim_C9_units_witness :
    Table.load_table "x" true "TABLE 5 contents" (.one [1, 2, 3, 4]) =
      .ok ⟨["quantity"], [], ["number", "energy", "entries"], .one [2, 3, 4],
        Table.unitsMeta⟩ ∧
    (⟨["quantity"], [], ["number", "energy", "entries"], .one [2, 3, 4],
        Table.unitsMeta⟩ : Table.DataArray).units =
      [("depth", "g/cm^2"), ("length", "m"), ("time", "ns"),
        ("angle", "deg"), ("energy", "GeV")] :=
  ⟨by rfl,
   claim_C9_units "x" true "TABLE 5 contents" (.one [1, 2, 3, 4]) _ (by rfl)⟩

end Zhaires
